import Mathlib

/-!
Verification of the fisheye undistortion core
(`src/core/undistortion/cpu_undistort.rs` and `src/core/gpu/wgpu.rs`)
against its natural-language specification.

The Rust code computes with `f32`/`f64`; the embedding models the scalars
as exact real numbers, keeping the control flow, the iteration counts,
the clamps and all thresholds of the source intact.  Byte buffers are
modelled as functions `ℕ → ℕ` (byte index to byte value), and the
generic pixel type `T : PixelType` of the source is modelled by a
structure carrying the same capabilities (channel count, scalar width,
encode/decode).
-/

namespace Gyroflow

/-! ### Camera distortion model (`cpu_undistort.rs`, lines 55-146) -/

/-- One clamped Newton-Raphson correction step, exactly as computed inside the
`for _ in 0..10` loop of `undistort_point`: the raw correction
`f0(theta) / f0'(theta)` clamped into `[-0.9, 0.9]`. -/
noncomputable def newtonFix (k : ℕ → ℝ) (theta_d theta : ℝ) : ℝ :=
  let theta2 := theta * theta
  let theta4 := theta2 * theta2
  let theta6 := theta4 * theta2
  let theta8 := theta6 * theta2
  let k0_theta2 := k 0 * theta2
  let k1_theta4 := k 1 * theta4
  let k2_theta6 := k 2 * theta6
  let k3_theta8 := k 3 * theta8
  let raw := (theta * (1 + k0_theta2 + k1_theta4 + k2_theta6 + k3_theta8) - theta_d) /
    (1 + 3 * k0_theta2 + 5 * k1_theta4 + 7 * k2_theta6 + 9 * k3_theta8)
  min (max raw (-(9 / 10))) (9 / 10)

/-- The Newton-Raphson loop of `undistort_point`, with explicit fuel
(the source runs `for _ in 0..10`, i.e. fuel 10).  Returns the final
`theta` together with the `converged` flag.  The loop updates
`theta := theta - theta_fix` and stops successfully as soon as
`|theta_fix| < 1e-6`. -/
noncomputable def newtonIter (k : ℕ → ℝ) (theta_d : ℝ) : ℕ → ℝ → ℝ × Bool
  | 0, theta => (theta, false)
  | n + 1, theta =>
    let theta_fix := newtonFix k theta_d theta
    let theta' := theta - theta_fix
    if |theta_fix| < 1 / 1000000 then (theta', true) else newtonIter k theta_d n theta'

/-- `theta_d` as computed at the top of `undistort_point`:
`sqrt(x² + y²)` clamped into `[-π, π]` (`.max(-pi).min(pi)`). -/
noncomputable def thetaD (point : ℝ × ℝ) : ℝ :=
  min (max (Real.sqrt (point.1 * point.1 + point.2 * point.2)) (-Real.pi)) Real.pi

/-- `undistort_point(point, k, amount)` (`cpu_undistort.rs`, lines 55-123).
Inverse fisheye projection via Newton-Raphson on `theta`, starting at 0,
at most 10 iterations; on failure (non-convergence or a sign flip of the
recovered `theta` relative to `theta_d`) returns `none`. -/
noncomputable def undistort_point (point : ℝ × ℝ) (k : ℕ → ℝ) (amount : ℝ) :
    Option (ℝ × ℝ) :=
  let theta_d := thetaD point
  -- (theta, converged, scale)
  let res : ℝ × Bool × ℝ :=
    if 1 / 1000000 < |theta_d| then
      let tc := newtonIter k theta_d 10 0
      (tc.1, tc.2, Real.tan tc.1 / theta_d)
    else (theta_d, true, 0)
  let theta_flipped := (theta_d < 0 ∧ 0 < res.1) ∨ (0 < theta_d ∧ res.1 < 0)
  if res.2.1 = true ∧ ¬theta_flipped then
    let scale := 1 + (res.2.2 - 1) * (1 - amount)
    some (point.1 * scale, point.2 * scale)
  else none

/-- `distort_point(point, f, c, k, amount)` (`cpu_undistort.rs`, lines 125-146).
Forward fisheye projection; total. -/
noncomputable def distort_point (point f c : ℝ × ℝ) (k : ℕ → ℝ) (amount : ℝ) :
    ℝ × ℝ :=
  let r := Real.sqrt (point.1 * point.1 + point.2 * point.2)
  let theta := Real.arctan r
  let theta2 := theta * theta
  let theta4 := theta2 * theta2
  let theta6 := theta4 * theta2
  let theta8 := theta4 * theta4
  let theta_d := theta * (1 + k 0 * theta2 + k 1 * theta4 + k 2 * theta6 + k 3 * theta8)
  let scale0 := if r = 0 then 1 else theta_d / r
  let scale := 1 + (scale0 - 1) * (1 - amount)
  (f.1 * point.1 * scale + c.1, f.2 * point.2 * scale + c.2)

/-- Unfolding lemma for one loop step. -/
theorem newtonIter_succ (k : ℕ → ℝ) (theta_d theta : ℝ) (n : ℕ) :
    newtonIter k theta_d (n + 1) theta =
      if |newtonFix k theta_d theta| < 1 / 1000000 then
        (theta - newtonFix k theta_d theta, true)
      else newtonIter k theta_d n (theta - newtonFix k theta_d theta) := rfl

theorem newtonIter_go {k : ℕ → ℝ} {theta_d theta : ℝ} (n : ℕ)
    (h : ¬|newtonFix k theta_d theta| < 1 / 1000000) :
    newtonIter k theta_d (n + 1) theta =
      newtonIter k theta_d n (theta - newtonFix k theta_d theta) := by
  rw [newtonIter_succ, if_neg h]

theorem newtonIter_done {k : ℕ → ℝ} {theta_d theta : ℝ} (n : ℕ)
    (h : |newtonFix k theta_d theta| < 1 / 1000000) :
    newtonIter k theta_d (n + 1) theta = (theta - newtonFix k theta_d theta, true) := by
  rw [newtonIter_succ, if_pos h]

theorem newtonIter_go' {k : ℕ → ℝ} {theta_d theta : ℝ} {n m : ℕ} (hm : n = m + 1)
    (h : ¬|newtonFix k theta_d theta| < 1 / 1000000) :
    newtonIter k theta_d n theta =
      newtonIter k theta_d m (theta - newtonFix k theta_d theta) := by
  subst hm; exact newtonIter_go m h

theorem newtonIter_done' {k : ℕ → ℝ} {theta_d theta : ℝ} {n m : ℕ} (hm : n = m + 1)
    (h : |newtonFix k theta_d theta| < 1 / 1000000) :
    newtonIter k theta_d n theta = (theta - newtonFix k theta_d theta, true) := by
  subst hm; exact newtonIter_done m h

/-- Behaviour of `undistort_point` when `|theta_d| > 1e-6` (the loop runs). -/
theorem undistort_point_pos_eq (p : ℝ × ℝ) (k : ℕ → ℝ) (amount : ℝ)
    (h : 1 / 1000000 < |thetaD p|) :
    undistort_point p k amount =
      if (newtonIter k (thetaD p) 10 0).2 = true ∧
          ¬((thetaD p < 0 ∧ 0 < (newtonIter k (thetaD p) 10 0).1) ∨
            (0 < thetaD p ∧ (newtonIter k (thetaD p) 10 0).1 < 0)) then
        some
          (p.1 * (1 + (Real.tan (newtonIter k (thetaD p) 10 0).1 / thetaD p - 1) * (1 - amount)),
           p.2 * (1 + (Real.tan (newtonIter k (thetaD p) 10 0).1 / thetaD p - 1) * (1 - amount)))
      else none := by
  simp only [undistort_point]
  rw [if_pos h]

/-- Behaviour of `undistort_point` when `|theta_d| ≤ 1e-6` (the loop is
skipped, `converged` is set, `scale` stays 0). -/
theorem undistort_point_small_eq (p : ℝ × ℝ) (k : ℕ → ℝ) (amount : ℝ)
    (h : ¬1 / 1000000 < |thetaD p|) :
    undistort_point p k amount =
      some (p.1 * (1 + (0 - 1) * (1 - amount)), p.2 * (1 + (0 - 1) * (1 - amount))) := by
  have hnf : ¬((thetaD p < 0 ∧ 0 < thetaD p) ∨ (0 < thetaD p ∧ thetaD p < 0)) := by
    rintro (⟨h1, h2⟩ | ⟨h1, h2⟩) <;> linarith
  simp only [undistort_point]
  rw [if_neg h, if_pos ⟨rfl, hnf⟩]

/-- C1: for every 2D point and coefficient vector `k`, `undistort_point`
first clamps `theta_d = sqrt(x²+y²)` into `[-π, π]`; when `|theta_d| > 1e-6`
it runs at most 10 Newton-Raphson iterations starting at `theta = 0`
(`newtonIter k theta_d 10 0`) with each per-step correction clamped to
`±0.9`, converging when the correction magnitude drops below `1e-6`; it
returns `none` exactly when the loop does not converge within 10 iterations
or the sign of the recovered `theta` differs from the sign of `theta_d`;
and on success the scale is blended toward identity as
`1 + (scale - 1)·(1 - amount)`. -/
theorem undistort_point_spec (p : ℝ × ℝ) (k : ℕ → ℝ) (amount : ℝ) :
    (-Real.pi ≤ thetaD p ∧ thetaD p ≤ Real.pi) ∧
    (∀ t : ℝ, |newtonFix k (thetaD p) t| ≤ 9 / 10) ∧
    (undistort_point p k amount = none ↔
      1 / 1000000 < |thetaD p| ∧
        ((newtonIter k (thetaD p) 10 0).2 = false ∨
          (thetaD p < 0 ∧ 0 < (newtonIter k (thetaD p) 10 0).1) ∨
          (0 < thetaD p ∧ (newtonIter k (thetaD p) 10 0).1 < 0))) ∧
    (undistort_point p k amount = none ∨
      ∃ s : ℝ, undistort_point p k amount =
        some (p.1 * (1 + (s - 1) * (1 - amount)), p.2 * (1 + (s - 1) * (1 - amount)))) := by
  refine ⟨⟨?_, ?_⟩, ?_, ?_, ?_⟩
  · exact le_min (le_max_right _ _) (by linarith [Real.pi_pos])
  · exact min_le_right _ _
  · intro t
    simp only [newtonFix]
    rw [abs_le]
    exact ⟨le_min (le_max_right _ _) (by norm_num), min_le_right _ _⟩
  · by_cases h : 1 / 1000000 < |thetaD p|
    · rw [undistort_point_pos_eq p k amount h]
      by_cases hc : (newtonIter k (thetaD p) 10 0).2 = true ∧
          ¬((thetaD p < 0 ∧ 0 < (newtonIter k (thetaD p) 10 0).1) ∨
            (0 < thetaD p ∧ (newtonIter k (thetaD p) 10 0).1 < 0))
      · rw [if_pos hc]
        constructor
        · intro habs; exact absurd habs (by simp)
        · rintro ⟨-, hd⟩
          rcases hd with hd | hd
          · rw [hc.1] at hd; exact absurd hd (by simp)
          · exact absurd hd hc.2
      · rw [if_neg hc]
        rcases not_and_or.mp hc with hc1 | hc2
        · exact ⟨fun _ => ⟨h, Or.inl (Bool.not_eq_true _ ▸ hc1)⟩, fun _ => rfl⟩
        · exact ⟨fun _ => ⟨h, Or.inr (not_not.mp hc2)⟩, fun _ => rfl⟩
    · rw [undistort_point_small_eq p k amount h]
      constructor
      · intro habs; exact absurd habs (by simp)
      · rintro ⟨h1, -⟩; exact absurd h1 h
  · by_cases h : 1 / 1000000 < |thetaD p|
    · rw [undistort_point_pos_eq p k amount h]
      by_cases hc : (newtonIter k (thetaD p) 10 0).2 = true ∧
          ¬((thetaD p < 0 ∧ 0 < (newtonIter k (thetaD p) 10 0).1) ∨
            (0 < thetaD p ∧ (newtonIter k (thetaD p) 10 0).1 < 0))
      · rw [if_pos hc]; exact Or.inr ⟨_, rfl⟩
      · rw [if_neg hc]; exact Or.inl rfl
    · rw [undistort_point_small_eq p k amount h]
      exact Or.inr ⟨0, rfl⟩

/-! ### Concrete coefficient vectors and loop evaluations -/

/-- The all-zero distortion coefficient vector. -/
def kZero : ℕ → ℝ := fun _ => 0

/-- A strongly negative first coefficient (`k0 = -8/5`) for which the Newton
loop enters an exact 2-cycle and never converges. -/
noncomputable def kC3 : ℕ → ℝ := fun i => if i = 0 then -(8 / 5) else 0

theorem newtonFix_kZero (theta_d theta : ℝ) :
    newtonFix kZero theta_d theta = min (max (theta - theta_d) (-(9 / 10))) (9 / 10) := by
  simp [newtonFix, kZero]

/-- With `k = 0` and `theta_d = 1/2`, the loop converges in two steps to
`theta = 1/2` (an exact root). -/
theorem loopZ_half : newtonIter kZero (1 / 2) 10 0 = (1 / 2, true) := by
  have f0 : newtonFix kZero (1 / 2) 0 = -(1 / 2) := by
    rw [newtonFix_kZero]; norm_num
  have f1 : newtonFix kZero (1 / 2) (1 / 2) = 0 := by
    rw [newtonFix_kZero]; norm_num
  have h0 : ¬|newtonFix kZero (1 / 2) 0| < 1 / 1000000 := by
    rw [f0]; rw [abs_neg, abs_of_nonneg (by norm_num : (0:ℝ) ≤ 1 / 2)]; norm_num
  rw [newtonIter_go' (rfl : (10 : ℕ) = 9 + 1) h0, f0]
  rw [show (0 : ℝ) - -(1 / 2) = 1 / 2 by norm_num]
  have h1 : |newtonFix kZero (1 / 2) (1 / 2)| < 1 / 1000000 := by
    rw [f1, abs_zero]; norm_num
  rw [newtonIter_done' (rfl : (9 : ℕ) = 8 + 1) h1, f1]
  norm_num

/-- With `k = 0` and `theta_d = π` (a clamped radius), the loop walks
`0, 0.9, 1.8, 2.7` and then lands exactly on `π`, converging. -/
theorem loopZ_pi : newtonIter kZero Real.pi 10 0 = (Real.pi, true) := by
  have f0 : newtonFix kZero Real.pi 0 = -(9 / 10) := by
    rw [newtonFix_kZero, zero_sub,
      max_eq_right (by linarith [Real.pi_gt_three] : -Real.pi ≤ -(9 / 10))]
    exact min_eq_left (by norm_num)
  have f1 : newtonFix kZero Real.pi (9 / 10) = -(9 / 10) := by
    rw [newtonFix_kZero,
      max_eq_right (by linarith [Real.pi_gt_three] : 9 / 10 - Real.pi ≤ -(9 / 10))]
    exact min_eq_left (by norm_num)
  have f2 : newtonFix kZero Real.pi (9 / 5) = -(9 / 10) := by
    rw [newtonFix_kZero,
      max_eq_right (by linarith [Real.pi_gt_three] : 9 / 5 - Real.pi ≤ -(9 / 10))]
    exact min_eq_left (by norm_num)
  have f3 : newtonFix kZero Real.pi (27 / 10) = 27 / 10 - Real.pi := by
    rw [newtonFix_kZero,
      max_eq_left (by linarith [Real.pi_lt_d2] : -(9 / 10) ≤ 27 / 10 - Real.pi)]
    exact min_eq_left (by linarith [Real.pi_gt_three])
  have f4 : newtonFix kZero Real.pi Real.pi = 0 := by
    rw [newtonFix_kZero, sub_self, max_eq_left (by norm_num)]
    exact min_eq_left (by norm_num)
  have hn : (0:ℝ) < 9 / 10 := by norm_num
  have h09 : ¬|(-(9 / 10) : ℝ)| < 1 / 1000000 := by
    rw [abs_neg, abs_of_nonneg hn.le]; norm_num
  have h0 : ¬|newtonFix kZero Real.pi 0| < 1 / 1000000 := by rw [f0]; exact h09
  have h1 : ¬|newtonFix kZero Real.pi (9 / 10)| < 1 / 1000000 := by rw [f1]; exact h09
  have h2 : ¬|newtonFix kZero Real.pi (9 / 5)| < 1 / 1000000 := by rw [f2]; exact h09
  have h3 : ¬|newtonFix kZero Real.pi (27 / 10)| < 1 / 1000000 := by
    rw [f3, abs_of_neg (by linarith [Real.pi_gt_three] : (27 / 10 : ℝ) - Real.pi < 0)]
    intro hlt
    have := Real.pi_gt_three
    linarith
  have h4 : |newtonFix kZero Real.pi Real.pi| < 1 / 1000000 := by
    rw [f4, abs_zero]; norm_num
  rw [newtonIter_go' (rfl : (10 : ℕ) = 9 + 1) h0, f0]
  rw [show (0 : ℝ) - -(9 / 10) = 9 / 10 by norm_num]
  rw [newtonIter_go' (rfl : (9 : ℕ) = 8 + 1) h1, f1]
  rw [show (9 / 10 : ℝ) - -(9 / 10) = 9 / 5 by norm_num]
  rw [newtonIter_go' (rfl : (8 : ℕ) = 7 + 1) h2, f2]
  rw [show (9 / 5 : ℝ) - -(9 / 10) = 27 / 10 by norm_num]
  rw [newtonIter_go' (rfl : (7 : ℕ) = 6 + 1) h3, f3]
  rw [show (27 / 10 : ℝ) - (27 / 10 - Real.pi) = Real.pi by ring]
  rw [newtonIter_done' (rfl : (6 : ℕ) = 5 + 1) h4, f4]
  rw [sub_zero]

/-- With `k0 = -8/5` and `theta_d = 1/2`, the clamped Newton iteration
cycles `0 → 1/2 → -2/5 → 1/2 → …` and exhausts all 10 iterations without
converging. -/
theorem loopC3 : newtonIter kC3 (1 / 2) 10 0 = (-(2 / 5), false) := by
  have fc0 : newtonFix kC3 (1 / 2) 0 = -(1 / 2) := by
    simp only [newtonFix, kC3]; norm_num
  have fcH : newtonFix kC3 (1 / 2) (1 / 2) = 9 / 10 := by
    simp only [newtonFix, kC3]; norm_num
  have fcN : newtonFix kC3 (1 / 2) (-(2 / 5)) = -(9 / 10) := by
    simp only [newtonFix, kC3]; norm_num
  have h0 : ¬|newtonFix kC3 (1 / 2) 0| < 1 / 1000000 := by
    rw [fc0, abs_neg, abs_of_nonneg (by norm_num : (0:ℝ) ≤ 1 / 2)]; norm_num
  have hH : ¬|newtonFix kC3 (1 / 2) (1 / 2)| < 1 / 1000000 := by
    rw [fcH, abs_of_nonneg (by norm_num : (0:ℝ) ≤ 9 / 10)]; norm_num
  have hN : ¬|newtonFix kC3 (1 / 2) (-(2 / 5))| < 1 / 1000000 := by
    rw [fcN, abs_neg, abs_of_nonneg (by norm_num : (0:ℝ) ≤ 9 / 10)]; norm_num
  rw [newtonIter_go' (rfl : (10 : ℕ) = 9 + 1) h0, fc0]
  rw [show (0 : ℝ) - -(1 / 2) = 1 / 2 by norm_num]
  rw [newtonIter_go' (rfl : (9 : ℕ) = 8 + 1) hH, fcH]
  rw [show (1 / 2 : ℝ) - 9 / 10 = -(2 / 5) by norm_num]
  rw [newtonIter_go' (rfl : (8 : ℕ) = 7 + 1) hN, fcN]
  rw [show (-(2 / 5) : ℝ) - -(9 / 10) = 1 / 2 by norm_num]
  rw [newtonIter_go' (rfl : (7 : ℕ) = 6 + 1) hH, fcH]
  rw [show (1 / 2 : ℝ) - 9 / 10 = -(2 / 5) by norm_num]
  rw [newtonIter_go' (rfl : (6 : ℕ) = 5 + 1) hN, fcN]
  rw [show (-(2 / 5) : ℝ) - -(9 / 10) = 1 / 2 by norm_num]
  rw [newtonIter_go' (rfl : (5 : ℕ) = 4 + 1) hH, fcH]
  rw [show (1 / 2 : ℝ) - 9 / 10 = -(2 / 5) by norm_num]
  rw [newtonIter_go' (rfl : (4 : ℕ) = 3 + 1) hN, fcN]
  rw [show (-(2 / 5) : ℝ) - -(9 / 10) = 1 / 2 by norm_num]
  rw [newtonIter_go' (rfl : (3 : ℕ) = 2 + 1) hH, fcH]
  rw [show (1 / 2 : ℝ) - 9 / 10 = -(2 / 5) by norm_num]
  rw [newtonIter_go' (rfl : (2 : ℕ) = 1 + 1) hN, fcN]
  rw [show (-(2 / 5) : ℝ) - -(9 / 10) = 1 / 2 by norm_num]
  rw [newtonIter_go' (rfl : (1 : ℕ) = 0 + 1) hH, fcH]
  rw [show (1 / 2 : ℝ) - 9 / 10 = -(2 / 5) by norm_num]
  rfl

/-- `sqrt((3/10)² + (2/5)²) = 1/2`. -/
theorem sqrt_pt : Real.sqrt (3 / 10 * (3 / 10) + 2 / 5 * (2 / 5)) = 1 / 2 := by
  rw [show (3 / 10 * (3 / 10) + 2 / 5 * (2 / 5) : ℝ) = (1 / 2) ^ 2 by norm_num,
    Real.sqrt_sq (by norm_num : (0:ℝ) ≤ 1 / 2)]

theorem thetaD_pt : thetaD (3 / 10, 2 / 5) = 1 / 2 := by
  show min (max (Real.sqrt (3 / 10 * (3 / 10) + 2 / 5 * (2 / 5))) (-Real.pi)) Real.pi = 1 / 2
  rw [sqrt_pt, max_eq_left (by linarith [Real.pi_pos] : -Real.pi ≤ 1 / 2)]
  exact min_eq_left (by linarith [Real.pi_gt_three])

theorem thetaD_ten : thetaD (10, 0) = Real.pi := by
  show min (max (Real.sqrt ((10:ℝ) * 10 + 0 * 0)) (-Real.pi)) Real.pi = Real.pi
  rw [show ((10:ℝ) * 10 + 0 * 0) = 10 ^ 2 by norm_num,
    Real.sqrt_sq (by norm_num : (0:ℝ) ≤ 10),
    max_eq_left (by linarith [Real.pi_pos] : -Real.pi ≤ 10)]
  exact min_eq_right (by linarith [Real.pi_lt_d2])

/-- The inversion of the point `(3/10, 2/5)` fails for `k0 = -8/5`. -/
theorem up_none : undistort_point (3 / 10, 2 / 5) kC3 0 = none := by
  have habs : 1 / 1000000 < |thetaD (3 / 10, 2 / 5)| := by
    rw [thetaD_pt, abs_of_nonneg (by norm_num : (0:ℝ) ≤ 1 / 2)]; norm_num
  rw [undistort_point_pos_eq _ _ _ habs, thetaD_pt, loopC3]
  simp

/-! ### C2: the distort/undistort roundtrip -/

/-- C2 (counterexample): with `k = 0`, `amount = 0`, `f = (1,1)`, `c = (0,0)`
and the point `p = (10, 0)` (radius 10, clamped to `π`), `undistort_point`
returns `some (0, 0)` — the inversion "succeeds" — yet the roundtrip
`distort_point (undistort_point p)` yields `(0, 0) ≠ (10, 0)`, an error of
magnitude 10, far outside any floating tolerance.  Hence "undistort_point
returns Some" does not delimit the model's valid inversion domain. -/
theorem roundtrip_counterexample :
    undistort_point (10, 0) kZero 0 = some (0, 0) ∧
    distort_point (0, 0) (1, 1) (0, 0) kZero 0 = (0, 0) ∧
    ((0 : ℝ), (0 : ℝ)) ≠ ((10 : ℝ), (0 : ℝ)) := by
  refine ⟨?_, ?_, by intro h; exact absurd (congrArg Prod.fst h) (by norm_num)⟩
  · have hpos : 1 / 1000000 < |thetaD (10, 0)| := by
      rw [thetaD_ten, abs_of_pos Real.pi_pos]; linarith [Real.pi_gt_three]
    rw [undistort_point_pos_eq _ _ _ hpos, thetaD_ten, loopZ_pi]
    rw [if_pos ⟨rfl, by rintro (⟨h1, -⟩ | ⟨-, h2⟩) <;> linarith [Real.pi_pos]⟩]
    norm_num [Real.tan_pi]
  · norm_num [distort_point, Real.sqrt_zero]

/-- C2 (amended): for `amount = 0`, `f = (1,1)`, `c = (0,0)` and a point
whose radius `r = sqrt(px²+py²)` lies in `(1e-6, π]` (so the clamp is
inactive), if the Newton iteration converges and lands on an exact root
`θ ∈ (0, π/2)` of the distortion polynomial, then `distort_point` composed
with `undistort_point` recovers the point exactly. -/
theorem distort_undistort_roundtrip (px py r θ : ℝ) (k : ℕ → ℝ)
    (hr : Real.sqrt (px * px + py * py) = r)
    (hrlo : 1 / 1000000 < r) (hrhi : r ≤ Real.pi)
    (hloop : newtonIter k r 10 0 = (θ, true))
    (hroot : θ * (1 + k 0 * (θ * θ) + k 1 * (θ * θ * (θ * θ)) +
      k 2 * (θ * θ * (θ * θ) * (θ * θ)) +
      k 3 * (θ * θ * (θ * θ) * (θ * θ * (θ * θ)))) = r)
    (hθpos : 0 < θ) (hθlt : θ < Real.pi / 2) :
    undistort_point (px, py) k 0 = some (px * (Real.tan θ / r), py * (Real.tan θ / r)) ∧
    distort_point (px * (Real.tan θ / r), py * (Real.tan θ / r)) (1, 1) (0, 0) k 0 =
      (px, py) := by
  have hrpos : (0 : ℝ) < r := lt_trans (by norm_num) hrlo
  have hθd : thetaD (px, py) = r := by
    show min (max (Real.sqrt (px * px + py * py)) (-Real.pi)) Real.pi = r
    rw [hr, max_eq_left (by linarith [Real.pi_pos] : -Real.pi ≤ r), min_eq_left hrhi]
  have htan : 0 < Real.tan θ := Real.tan_pos_of_pos_of_lt_pi_div_two hθpos hθlt
  have hs : 0 < Real.tan θ / r := div_pos htan hrpos
  constructor
  · have habs : 1 / 1000000 < |thetaD (px, py)| := by
      rw [hθd, abs_of_pos hrpos]; exact hrlo
    rw [undistort_point_pos_eq _ _ _ habs, hθd, hloop]
    rw [if_pos ⟨rfl, by rintro (⟨h1, -⟩ | ⟨-, h2⟩) <;> linarith⟩]
    simp only [Option.some.injEq, Prod.mk.injEq]
    constructor <;> ring
  · have hsq : Real.sqrt (px * (Real.tan θ / r) * (px * (Real.tan θ / r)) +
        py * (Real.tan θ / r) * (py * (Real.tan θ / r))) = Real.tan θ := by
      rw [show px * (Real.tan θ / r) * (px * (Real.tan θ / r)) +
          py * (Real.tan θ / r) * (py * (Real.tan θ / r)) =
          (Real.tan θ / r) ^ 2 * (px * px + py * py) by ring]
      rw [Real.sqrt_mul (sq_nonneg _), Real.sqrt_sq hs.le, hr]
      exact div_mul_cancel₀ _ (ne_of_gt hrpos)
    simp only [distort_point]
    rw [hsq, if_neg (ne_of_gt htan),
      Real.arctan_tan (by linarith [Real.pi_pos] : -(Real.pi / 2) < θ) hθlt, hroot]
    simp only [Prod.mk.injEq]
    constructor <;> field_simp

/-- Witness for the amended C2 at `p = (3/10, 2/5)`, `k = 0`, `r = 1/2`,
`θ = 1/2`. -/
theorem distort_undistort_roundtrip_witness :
    (Real.sqrt (3 / 10 * (3 / 10) + 2 / 5 * (2 / 5)) = 1 / 2 ∧
      (1 : ℝ) / 1000000 < 1 / 2 ∧ (1 : ℝ) / 2 ≤ Real.pi ∧
      newtonIter kZero (1 / 2) 10 0 = (1 / 2, true) ∧
      (0 : ℝ) < 1 / 2 ∧ (1 : ℝ) / 2 < Real.pi / 2) ∧
    undistort_point (3 / 10, 2 / 5) kZero 0 =
      some (3 / 10 * (Real.tan (1 / 2) / (1 / 2)), 2 / 5 * (Real.tan (1 / 2) / (1 / 2))) ∧
    distort_point (3 / 10 * (Real.tan (1 / 2) / (1 / 2)),
        2 / 5 * (Real.tan (1 / 2) / (1 / 2))) (1, 1) (0, 0) kZero 0 = (3 / 10, 2 / 5) := by
  refine ⟨⟨sqrt_pt, by norm_num, by linarith [Real.pi_gt_three], loopZ_half, by norm_num,
    by linarith [Real.pi_gt_three]⟩, ?_⟩
  exact distort_undistort_roundtrip (3 / 10) (2 / 5) (1 / 2) (1 / 2) kZero sqrt_pt
    (by norm_num) (by linarith [Real.pi_gt_three]) loopZ_half (by simp [kZero])
    (by norm_num) (by linarith [Real.pi_gt_three])

/-! ### Point batch transformer (`cpu_undistort.rs`, lines 292-325) -/

/-- The only field of `ComputeParams` read by `undistort_points`. -/
structure ComputeParamsM where
  lens_correction_amount : ℝ

/-- 3×3 matrix product (`p * rr` in the source). -/
def mat3mul (a b : ℕ → ℕ → ℝ) : ℕ → ℕ → ℝ :=
  fun i j => a i 0 * b 0 j + a i 1 * b 1 j + a i 2 * b 2 j

/-- `undistort_points` (`cpu_undistort.rs`, lines 292-325): per point,
normalize by the intrinsics, invert the distortion, reproject through the
(per-point or shared) rotation, optionally re-apply partial forward
distortion; on inversion failure emit the sentinel `(-1000000, -1000000)`. -/
noncomputable def undistort_points (distorted : List (ℝ × ℝ))
    (camera_matrix : ℕ → ℕ → ℝ) (distortion_coeffs : ℕ → ℝ)
    (rotation : ℕ → ℕ → ℝ) (p : Option (ℕ → ℕ → ℝ))
    (rot_per_point : Option (List (ℕ → ℕ → ℝ)))
    (params : Option ComputeParamsM) : List (ℝ × ℝ) :=
  let f := (camera_matrix 0 0, camera_matrix 1 1)
  let c := (camera_matrix 0 2, camera_matrix 1 2)
  let k := distortion_coeffs
  let rr := match p with
    | some pm => mat3mul pm rotation
    | none => rotation
  distorted.enum.map fun ip =>
    let index := ip.1
    let pi0 := ip.2
    let pw := ((pi0.1 - c.1) / f.1, (pi0.2 - c.2) / f.2)
    let rot := match rot_per_point with
      | some v => v.getD index rr
      | none => rr
    match undistort_point pw k 0 with
    | some pt0 =>
      let pr := (rot 0 0 * pt0.1 + rot 0 1 * pt0.2 + rot 0 2,
                 rot 1 0 * pt0.1 + rot 1 1 * pt0.2 + rot 1 2,
                 rot 2 0 * pt0.1 + rot 2 1 * pt0.2 + rot 2 2)
      let pt1 := (pr.1 / pr.2.2, pr.2.1 / pr.2.2)
      match params with
      | some ps =>
        if ps.lens_correction_amount < 1 then
          let out_c := c
          let pt2 := ((pt1.1 - out_c.1) / f.1, (pt1.2 - out_c.2) / f.2)
          distort_point pt2 f out_c k ps.lens_correction_amount
        else pt1
      | none => pt1
    | none => (-1000000, -1000000)

/-- C5: `undistort_points` returns a sequence of exactly the same length
(and order) as the input, and for each point whose distortion inversion
fails the corresponding output element is the sentinel
`(-1000000, -1000000)`; processing of the other points continues. -/
theorem undistort_points_spec (distorted : List (ℝ × ℝ))
    (camera_matrix : ℕ → ℕ → ℝ) (k : ℕ → ℝ) (rotation : ℕ → ℕ → ℝ)
    (p : Option (ℕ → ℕ → ℝ)) (rot_per_point : Option (List (ℕ → ℕ → ℝ)))
    (params : Option ComputeParamsM) (i : ℕ) (hi : i < distorted.length)
    (hfail : undistort_point
      (((distorted.getD i (0, 0)).1 - camera_matrix 0 2) / camera_matrix 0 0,
       ((distorted.getD i (0, 0)).2 - camera_matrix 1 2) / camera_matrix 1 1) k 0 = none) :
    (undistort_points distorted camera_matrix k rotation p rot_per_point params).length =
      distorted.length ∧
    (undistort_points distorted camera_matrix k rotation p rot_per_point params).getD i
      (0, 0) = (-1000000, -1000000) := by
  constructor
  · simp [undistort_points, List.enum_length]
  · rw [List.getD_eq_getD_get?]
    simp only [undistort_points]
    rw [List.get?_map, List.get?_enum, List.get?_eq_get hi]
    rw [show distorted.get ⟨i, hi⟩ = distorted.getD i (0, 0) from
      (List.getD_eq_get distorted (0, 0) hi).symm]
    simp only [Option.map_some', Option.getD_some]
    rw [hfail]

/-- Identity 3×3 camera matrix (`fx = fy = 1`, `cx = cy = 0`). -/
def cmI : ℕ → ℕ → ℝ := fun i j => if i = j then 1 else 0

/-- Witness for C5: a one-point batch whose single point fails to invert
(`k0 = -8/5`) yields a batch of the same length carrying the sentinel. -/
theorem undistort_points_spec_witness :
    (undistort_points [((3 : ℝ) / 10, (2 : ℝ) / 5)] cmI kC3 cmI none none none).length =
      [((3 : ℝ) / 10, (2 : ℝ) / 5)].length ∧
    (undistort_points [((3 : ℝ) / 10, (2 : ℝ) / 5)] cmI kC3 cmI none none none).getD 0
      (0, 0) = (-1000000, -1000000) := by
  refine undistort_points_spec _ _ _ _ _ _ _ 0 (by norm_num) ?_
  have e1 : (([((3 : ℝ) / 10, (2 : ℝ) / 5)].getD 0 (0, 0)).1 - cmI 0 2) / cmI 0 0 =
      3 / 10 := by norm_num [cmI]
  have e2 : (([((3 : ℝ) / 10, (2 : ℝ) / 5)].getD 0 (0, 0)).2 - cmI 1 2) / cmI 1 1 =
      2 / 5 := by norm_num [cmI]
  rw [e1, e2]
  exact up_none

/-! ### CPU raster engine (`cpu_undistort.rs`, lines 8-53 and 148-281) -/

/-- The capabilities of the generic pixel type `T : PixelType` of the source:
channel count, per-channel scalar byte width, and the conversions between a
pixel record (as bytes) and a 4-component float color. -/
structure PixelTypeM where
  count : ℕ
  scalarBytes : ℕ
  fromFloat : (ℕ → ℝ) → ℕ → ℕ
  toFloat : (ℕ → ℕ) → ℕ → ℝ

/-- The static polyphase interpolation coefficient bank (`COEFFS`,
`cpu_undistort.rs` lines 8-53): 32 bilinear pairs, 32 bicubic quadruples,
32 Lanczos4 octuples. -/
def COEFFS : List ℝ := [
  1.000000, 0.000000, 0.968750, 0.031250, 0.937500, 0.062500,
  0.906250, 0.093750, 0.875000, 0.125000, 0.843750, 0.156250,
  0.812500, 0.187500, 0.781250, 0.218750, 0.750000, 0.250000,
  0.718750, 0.281250, 0.687500, 0.312500, 0.656250, 0.343750,
  0.625000, 0.375000, 0.593750, 0.406250, 0.562500, 0.437500,
  0.531250, 0.468750, 0.500000, 0.500000, 0.468750, 0.531250,
  0.437500, 0.562500, 0.406250, 0.593750, 0.375000, 0.625000,
  0.343750, 0.656250, 0.312500, 0.687500, 0.281250, 0.718750,
  0.250000, 0.750000, 0.218750, 0.781250, 0.187500, 0.812500,
  0.156250, 0.843750, 0.125000, 0.875000, 0.093750, 0.906250,
  0.062500, 0.937500, 0.031250, 0.968750, 0.000000, 1.000000,
  0.000000, 0.000000, -0.021996, 0.997841, 0.024864, -0.000710,
  -0.041199, 0.991516, 0.052429, -0.002747, -0.057747, 0.981255,
  0.082466, -0.005974, -0.071777, 0.967285, 0.114746, -0.010254,
  -0.083427, 0.949837, 0.149040, -0.015450, -0.092834, 0.929138,
  0.185120, -0.021423, -0.100136, 0.905418, 0.222755, -0.028038,
  -0.105469, 0.878906, 0.261719, -0.035156, -0.108971, 0.849831,
  0.301781, -0.042641, -0.110779, 0.818420, 0.342712, -0.050354,
  -0.111031, 0.784904, 0.384285, -0.058159, -0.109863, 0.749512,
  0.426270, -0.065918, -0.107414, 0.712471, 0.468437, -0.073494,
  -0.103821, 0.674011, 0.510559, -0.080750, -0.099220, 0.634361,
  0.552406, -0.087547, -0.093750, 0.593750, 0.593750, -0.093750,
  -0.087547, 0.552406, 0.634361, -0.099220, -0.080750, 0.510559,
  0.674011, -0.103821, -0.073494, 0.468437, 0.712471, -0.107414,
  -0.065918, 0.426270, 0.749512, -0.109863, -0.058159, 0.384285,
  0.784904, -0.111031, -0.050354, 0.342712, 0.818420, -0.110779,
  -0.042641, 0.301781, 0.849831, -0.108971, -0.035156, 0.261719,
  0.878906, -0.105469, -0.028038, 0.222755, 0.905418, -0.100136,
  -0.021423, 0.185120, 0.929138, -0.092834, -0.015450, 0.149040,
  0.949837, -0.083427, -0.010254, 0.114746, 0.967285, -0.071777,
  -0.005974, 0.082466, 0.981255, -0.057747, -0.002747, 0.052429,
  0.991516, -0.041199, -0.000710, 0.024864, 0.997841, -0.021996,
  0.000000, 0.000000, 0.000000, 1.000000, 0.000000, 0.000000,
  0.000000, 0.000000, -0.002981, 0.009625, -0.027053, 0.998265,
  0.029187, -0.010246, 0.003264, -0.000062, -0.005661, 0.018562,
  -0.051889, 0.993077, 0.060407, -0.021035, 0.006789, -0.000250,
  -0.008027, 0.026758, -0.074449, 0.984478, 0.093543, -0.032281,
  0.010545, -0.000567, -0.010071, 0.034167, -0.094690, 0.972534,
  0.128459, -0.043886, 0.014499, -0.001012, -0.011792, 0.040757,
  -0.112589, 0.957333, 0.165004, -0.055744, 0.018613, -0.001582,
  -0.013191, 0.046507, -0.128145, 0.938985, 0.203012, -0.067742,
  0.022845, -0.002271, -0.014275, 0.051405, -0.141372, 0.917621,
  0.242303, -0.079757, 0.027146, -0.003071, -0.015054, 0.055449,
  -0.152304, 0.893389, 0.282684, -0.091661, 0.031468, -0.003971,
  -0.015544, 0.058648, -0.160990, 0.866453, 0.323952, -0.103318,
  0.035754, -0.004956, -0.015761, 0.061020, -0.167496, 0.836995,
  0.365895, -0.114591, 0.039949, -0.006011, -0.015727, 0.062590,
  -0.171900, 0.805208, 0.408290, -0.125335, 0.043992, -0.007117,
  -0.015463, 0.063390, -0.174295, 0.771299, 0.450908, -0.135406,
  0.047823, -0.008254, -0.014995, 0.063460, -0.174786, 0.735484,
  0.493515, -0.144657, 0.051378, -0.009399, -0.014349, 0.062844,
  -0.173485, 0.697987, 0.535873, -0.152938, 0.054595, -0.010527,
  -0.013551, 0.061594, -0.170517, 0.659039, 0.577742, -0.160105,
  0.057411, -0.011613, -0.012630, 0.059764, -0.166011, 0.618877,
  0.618877, -0.166011, 0.059764, -0.012630, -0.011613, 0.057411,
  -0.160105, 0.577742, 0.659039, -0.170517, 0.061594, -0.013551,
  -0.010527, 0.054595, -0.152938, 0.535873, 0.697987, -0.173485,
  0.062844, -0.014349, -0.009399, 0.051378, -0.144657, 0.493515,
  0.735484, -0.174786, 0.063460, -0.014995, -0.008254, 0.047823,
  -0.135406, 0.450908, 0.771299, -0.174295, 0.063390, -0.015463,
  -0.007117, 0.043992, -0.125336, 0.408290, 0.805208, -0.171900,
  0.062590, -0.015727, -0.006011, 0.039949, -0.114591, 0.365895,
  0.836995, -0.167496, 0.061020, -0.015761, -0.004956, 0.035754,
  -0.103318, 0.323952, 0.866453, -0.160990, 0.058648, -0.015544,
  -0.003971, 0.031468, -0.091661, 0.282684, 0.893389, -0.152304,
  0.055449, -0.015054, -0.003071, 0.027146, -0.079757, 0.242303,
  0.917621, -0.141372, 0.051405, -0.014275, -0.002271, 0.022845,
  -0.067742, 0.203012, 0.938985, -0.128145, 0.046507, -0.013191,
  -0.001582, 0.018613, -0.055744, 0.165004, 0.957333, -0.112589,
  0.040757, -0.011792, -0.001012, 0.014499, -0.043886, 0.128459,
  0.972534, -0.094690, 0.034167, -0.010071, -0.000567, 0.010545,
  -0.032281, 0.093543, 0.984478, -0.074449, 0.026758, -0.008027,
  -0.000250, 0.006789, -0.021035, 0.060407, 0.993077, -0.051889,
  0.018562, -0.005661, -0.000062, 0.003264, -0.010246, 0.029187,
  0.998265, -0.027053, 0.009625, -0.002981]

/-- `shift = (I >> 2) + 1`. -/
def interShift (I : ℕ) : ℕ := I / 4 + 1

/-- `offset = [0.0, 1.0, 3.0][I >> 2]`. -/
noncomputable def interOffset (I : ℕ) : ℝ := [(0 : ℝ), 1, 3].getD (I / 4) 0

/-- `ind = [0, 64, 64 + 128][I >> 2]`. -/
def interInd (I : ℕ) : ℕ := [0, 64, 64 + 128].getD (I / 4) 0

/-- Rust `f32::round`: round to the nearest integer, ties away from zero. -/
noncomputable def rustRound (x : ℝ) : ℤ :=
  if 0 ≤ x then ⌊x + 1 / 2⌋ else -⌊-x + 1 / 2⌋

/-- Row 0 of the flattened parameter buffer (intrinsics, distortion
coefficients, radius limit). -/
def pRow0 (params : List (ℕ → ℝ)) : ℕ → ℝ := params.getD 0 (fun _ => 0)

/-- Row 1 of the flattened parameter buffer (blend amount, background mode,
fov scale). -/
def pRow1 (params : List (ℕ → ℝ)) : ℕ → ℝ := params.getD 1 (fun _ => 0)

/-- `f = (params[0][0], params[0][1])`. -/
noncomputable def pF (params : List (ℕ → ℝ)) : ℝ × ℝ := (pRow0 params 0, pRow0 params 1)

/-- `c = (params[0][2], params[0][3])`. -/
noncomputable def pC (params : List (ℕ → ℝ)) : ℝ × ℝ := (pRow0 params 2, pRow0 params 3)

/-- `k = &params[0][4..8]`. -/
noncomputable def pK (params : List (ℕ → ℝ)) : ℕ → ℝ := fun i => pRow0 params (4 + i)

/-- `r_limit = params[0][8]`. -/
noncomputable def pRLimit (params : List (ℕ → ℝ)) : ℝ := pRow0 params 8

/-- `lens_correction_amount = params[1][0]`. -/
noncomputable def pAmount (params : List (ℕ → ℝ)) : ℝ := pRow1 params 0

/-- `background_mode = params[1][1]`. -/
noncomputable def pBgMode (params : List (ℕ → ℝ)) : ℝ := pRow1 params 1

/-- `fov = params[1][2]`. -/
noncomputable def pFov (params : List (ℕ → ℝ)) : ℝ := pRow1 params 2

/-- Rolling-shutter source-row resolution (`undistort_image_cpu`,
lines 182-195): when the parameter buffer has more than 3 rows, map the
output pixel through the middle-indexed row homography
(`params[2 + (len - 2) / 2]`), forward-distort with amount 0, round the
`y` coordinate and clamp it with `.min(height).max(0)`; otherwise (or when
`w ≤ 0`) keep `y`. -/
noncomputable def rsRow (params : List (ℕ → ℝ)) (height : ℕ) (x y : ℕ) : ℕ :=
  if 3 < params.length then
    let m := params.getD (2 + (params.length - 2) / 2) (fun _ => 0)
    let mx := (y : ℝ) * m 1 + m 2 + (x : ℝ) * m 0
    let my := (y : ℝ) * m 4 + m 5 + (x : ℝ) * m 3
    let mw := (y : ℝ) * m 7 + m 8 + (x : ℝ) * m 6
    if 0 < mw then
      let pt := distort_point (mx / mw, my / mw) (pF params) (pC params) (pK params) 0
      (max (min (rustRound pt.2) (height : ℤ)) 0).toNat
    else y
  else y

/-- The partial lens-correction pre-warp (`undistort_image_cpu`,
lines 197-203): when `lens_correction_amount < 1`, normalize the pixel
around the output center by `f2 = f / fov / max(1 - amount, 0.001)`,
invert the distortion (`unwrap_or_default`, i.e. `(0,0)` on failure) and
map back; otherwise keep the pixel position. -/
noncomputable def lensPt (params : List (ℕ → ℝ)) (output_width output_height : ℕ)
    (x y : ℕ) : ℝ × ℝ :=
  let lens_correction_amount := pAmount params
  let factor := max (1 - lens_correction_amount) (1 / 1000)
  let f := pF params
  let fov := pFov params
  let f2 := (f.1 / fov / factor, f.2 / fov / factor)
  let out_c := ((output_width : ℝ) / 2, (output_height : ℝ) / 2)
  if lens_correction_amount < 1 then
    let q := (((x : ℝ) - out_c.1) / f2.1, ((y : ℝ) - out_c.2) / f2.2)
    let q2 := (undistort_point q (pK params) lens_correction_amount).getD (0, 0)
    (q2.1 * f2.1 + out_c.1, q2.2 * f2.2 + out_c.2)
  else ((x : ℝ), (y : ℝ))

/-- Edge policy (`undistort_image_cpu`, lines 224-238): clamp for
edge-repeat (`0.9 < mode < 1.1`), reflect at a 3-pixel margin for
edge-mirror (`1.9 < mode < 2.1`), otherwise leave the point unchanged. -/
noncomputable def edgeHandle (background_mode : ℝ) (width height : ℕ)
    (pt : ℝ × ℝ) : ℝ × ℝ :=
  let edge_repeat := 9 / 10 < background_mode ∧ background_mode < 11 / 10
  let edge_mirror := 19 / 10 < background_mode ∧ background_mode < 21 / 10
  if edge_repeat then
    (min (max pt.1 0) ((width : ℝ) - 1), min (max pt.2 0) ((height : ℝ) - 1))
  else if edge_mirror then
    let rx := ((rustRound pt.1 : ℤ) : ℝ)
    let ry := ((rustRound pt.2 : ℤ) : ℝ)
    let width3 := (width : ℝ) - 3
    let height3 := (height : ℝ) - 3
    let p0a := if width3 < rx then width3 - (rx - width3) else pt.1
    let p0 := if rx < 3 then 3 + (width : ℝ) - (width3 + rx) else p0a
    let p1a := if height3 < ry then height3 - (ry - height3) else pt.2
    let p1 := if ry < 3 then 3 + (height : ℝ) - (height3 + ry) else p1a
    (p0, p1)
  else pt

/-- Outcome of the per-pixel geometric stage of `undistort_image_cpu`:
background due to `w ≤ 0`, background due to the radius limit, or a
source-space sample position. -/
inductive CpuOutcome where
  | bgMap : CpuOutcome
  | bgRadius : CpuOutcome
  | sample : ℝ × ℝ → CpuOutcome

/-- The homography row selected for the resolved source row `sy`:
`params[(sy + 2).min(len - 1)]` (line 205). -/
noncomputable def homRow (params : List (ℕ → ℝ)) (height x y : ℕ) : ℕ → ℝ :=
  params.getD (min (rsRow params height x y + 2) (params.length - 1)) (fun _ => 0)

/-- `_x = pt.1 * m[1] + m[2] + pt.0 * m[0]` (line 206). -/
noncomputable def homX (params : List (ℕ → ℝ)) (height output_width output_height : ℕ)
    (x y : ℕ) : ℝ :=
  (lensPt params output_width output_height x y).2 * homRow params height x y 1 +
    homRow params height x y 2 +
    (lensPt params output_width output_height x y).1 * homRow params height x y 0

/-- `_y = pt.1 * m[4] + m[5] + pt.0 * m[3]` (line 207). -/
noncomputable def homY (params : List (ℕ → ℝ)) (height output_width output_height : ℕ)
    (x y : ℕ) : ℝ :=
  (lensPt params output_width output_height x y).2 * homRow params height x y 4 +
    homRow params height x y 5 +
    (lensPt params output_width output_height x y).1 * homRow params height x y 3

/-- `_w = pt.1 * m[7] + m[8] + pt.0 * m[6]` (line 208). -/
noncomputable def homW (params : List (ℕ → ℝ)) (height output_width output_height : ℕ)
    (x y : ℕ) : ℝ :=
  (lensPt params output_width output_height x y).2 * homRow params height x y 7 +
    homRow params height x y 8 +
    (lensPt params output_width output_height x y).1 * homRow params height x y 6

/-- Steps 1-6 of the per-pixel computation of `undistort_image_cpu`
(lines 182-238): rolling-shutter row, lens pre-warp, row homography,
`w > 0` test, radius-limit test, forward distortion and edge policy. -/
noncomputable def cpuPixelOutcome (params : List (ℕ → ℝ))
    (width height output_width output_height : ℕ) (x y : ℕ) : CpuOutcome :=
  if 0 < homW params height output_width output_height x y then
    let posx := homX params height output_width output_height x y /
      homW params height output_width output_height x y
    let posy := homY params height output_width output_height x y /
      homW params height output_width output_height x y
    if 0 < pRLimit params ∧
        pRLimit params * pRLimit params < posx * posx + posy * posy then
      CpuOutcome.bgRadius
    else
      CpuOutcome.sample (edgeHandle (pBgMode params) width height
        (distort_point (posx, posy) (pF params) (pC params) (pK params) 0))
  else CpuOutcome.bgMap

/-- The `I × I` polyphase convolution (lines 252-273): rows outside the
source contribute `bg` weighted by the row coefficient, taps outside a row
contribute `bg` weighted by the tap coefficient. -/
noncomputable def cpuSample (ptm : PixelTypeM) (pixels : ℕ → ℕ) (bg : ℕ → ℝ)
    (width height stride : ℕ) (I : ℕ) (sx sy : ℤ) (coeffs_x coeffs_y : ℕ → ℝ) :
    ℕ → ℝ :=
  fun ch =>
    Finset.sum (Finset.range I) fun yp =>
      if 0 ≤ sy + (yp : ℤ) ∧ sy + (yp : ℤ) < (height : ℤ) then
        (Finset.sum (Finset.range I) fun xp =>
          (if 0 ≤ sx + (xp : ℤ) ∧ sx + (xp : ℤ) < (width : ℤ) then
            ptm.toFloat (fun j => pixels
              (((sy + (yp : ℤ)) * (stride : ℤ) +
                (sx + (xp : ℤ)) * ((ptm.count * ptm.scalarBytes : ℕ) : ℤ)).toNat + j)) ch
          else bg ch) * coeffs_x xp) * coeffs_y yp
      else bg ch * coeffs_y yp

/-- The full per-pixel color of `undistort_image_cpu`: the background color
for the two background outcomes (the source writes `bg_t = from_float bg`
there), else the sub-pixel phase computation and convolution of
lines 240-274. -/
noncomputable def cpuPixelColor (ptm : PixelTypeM) (pixels : ℕ → ℕ)
    (params : List (ℕ → ℝ)) (width height stride output_width output_height : ℕ)
    (I : ℕ) (bg : ℕ → ℝ) (x y : ℕ) : ℕ → ℝ :=
  match cpuPixelOutcome params width height output_width output_height x y with
  | CpuOutcome.bgMap => bg
  | CpuOutcome.bgRadius => bg
  | CpuOutcome.sample pt =>
    let u := pt.1 - interOffset I
    let v := pt.2 - interOffset I
    let sx0 := rustRound (u * 32)
    let sy0 := rustRound (v * 32)
    let sx := Int.fdiv sx0 32
    let sy := Int.fdiv sy0 32
    let coeffs_x := fun xp =>
      COEFFS.getD (interInd I + (sx0.emod 32).toNat * 2 ^ interShift I + xp) 0
    let coeffs_y := fun yp =>
      COEFFS.getD (interInd I + (sy0.emod 32).toNat * 2 ^ interShift I + yp) 0
    cpuSample ptm pixels bg width height stride I sx sy coeffs_x coeffs_y

/-- `Undistortion::undistort_image_cpu` (lines 152-281) as a byte-level
frame transformer: the output buffer is chunked into rows of
`output_stride` bytes and each row into pixel records of
`count * scalarBytes` bytes; a record is written (with the encoded
per-pixel color) only when `y < output_height`, `x < output_width` and the
record is complete; every other byte keeps its previous value. -/
noncomputable def undistort_image_cpu (ptm : PixelTypeM) (pixels out_pixels : ℕ → ℕ)
    (width height stride output_width output_height output_stride : ℕ) (I : ℕ)
    (params : List (ℕ → ℝ)) (bg : ℕ → ℝ) : ℕ → ℕ :=
  fun i =>
    let bytes_per_pixel := ptm.count * ptm.scalarBytes
    let y := i / output_stride
    let x := i % output_stride / bytes_per_pixel
    if y < output_height ∧ x < output_width ∧ (x + 1) * bytes_per_pixel ≤ output_stride then
      ptm.fromFloat
        (cpuPixelColor ptm pixels params width height stride output_width output_height I bg x y)
        (i % output_stride % bytes_per_pixel)
    else out_pixels i

/-! ### C6, C10: radius limit and frame condition -/

/-- C6: a pixel's outcome is `bgRadius` (background written, processing of
the pixel stopped) exactly when `w > 0`, the configured radius limit is
positive, and the normalized point's squared norm exceeds the limit's
square; in particular `r_limit = 0` never forces background via the radius
test.  Whenever the outcome is `bgRadius`, the written color is the
background color. -/
theorem radius_limit_spec (ptm : PixelTypeM) (pixels : ℕ → ℕ)
    (params : List (ℕ → ℝ)) (width height stride output_width output_height I : ℕ)
    (bg : ℕ → ℝ) (x y : ℕ) :
    (cpuPixelOutcome params width height output_width output_height x y =
        CpuOutcome.bgRadius ↔
      0 < homW params height output_width output_height x y ∧
        0 < pRLimit params ∧
        pRLimit params * pRLimit params <
          homX params height output_width output_height x y /
              homW params height output_width output_height x y *
            (homX params height output_width output_height x y /
              homW params height output_width output_height x y) +
          homY params height output_width output_height x y /
              homW params height output_width output_height x y *
            (homY params height output_width output_height x y /
              homW params height output_width output_height x y)) ∧
    (¬cpuPixelOutcome params width height output_width output_height x y =
        CpuOutcome.bgRadius ∨
      cpuPixelColor ptm pixels params width height stride output_width output_height
        I bg x y = bg) := by
  constructor
  · simp only [cpuPixelOutcome]
    split_ifs with h1 h2
    · exact ⟨fun _ => ⟨h1, h2⟩, fun _ => rfl⟩
    · constructor
      · intro habs; exact absurd habs (by simp)
      · rintro ⟨-, h2'⟩; exact absurd h2' h2
    · constructor
      · intro habs; exact absurd habs (by simp)
      · rintro ⟨h1', -⟩; exact absurd h1' h1
  · by_cases hb : cpuPixelOutcome params width height output_width output_height x y =
        CpuOutcome.bgRadius
    · right
      simp only [cpuPixelColor, hb]
    · left; exact hb

/-- C10: `undistort_image_cpu` writes only the bytes of complete output
pixel records with `x < output_width` and `y < output_height`; every other
byte — in particular the alignment padding at the end of each row when
`output_stride` exceeds `output_width * bytes_per_pixel` — keeps the value
it had in the destination buffer. -/
theorem undistort_image_cpu_frame (ptm : PixelTypeM) (pixels out_pixels : ℕ → ℕ)
    (width height stride output_width output_height output_stride I : ℕ)
    (params : List (ℕ → ℝ)) (bg : ℕ → ℝ) (i : ℕ)
    (hbpp : 0 < ptm.count * ptm.scalarBytes)
    (hi : output_height ≤ i / output_stride ∨
      output_width * (ptm.count * ptm.scalarBytes) ≤ i % output_stride) :
    undistort_image_cpu ptm pixels out_pixels width height stride output_width
      output_height output_stride I params bg i = out_pixels i := by
  simp only [undistort_image_cpu]
  rw [if_neg]
  rintro ⟨hy, hx, -⟩
  rcases hi with h | h
  · exact absurd hy (not_lt.2 h)
  · exact absurd ((Nat.div_lt_iff_lt_mul hbpp).mp hx)
      (not_lt.2 (le_trans h (le_refl _)))

/-! ### C3: the fallback position when the lens pre-warp inversion fails -/

/-- Witness for C10 (trivial codec, 4 channels of 1 byte). -/
def ptmRGBA : PixelTypeM := ⟨4, 1, fun _ _ => 0, fun _ _ => 0⟩

theorem undistort_image_cpu_frame_witness :
    (0 < ptmRGBA.count * ptmRGBA.scalarBytes ∧
      ((2 : ℕ) ≤ 17 / 20 ∨ 4 * (ptmRGBA.count * ptmRGBA.scalarBytes) ≤ 17 % 20)) ∧
    undistort_image_cpu ptmRGBA (fun _ => 0) (fun j => j + 5) 6 4 24 4 2 20 2 []
      (fun _ => 0) 17 = (fun j : ℕ => j + 5) 17 := by
  refine ⟨⟨by norm_num [ptmRGBA], Or.inr (by norm_num [ptmRGBA])⟩, ?_⟩
  exact undistort_image_cpu_frame ptmRGBA _ _ 6 4 24 4 2 20 2 [] _ 17
    (by norm_num [ptmRGBA]) (Or.inr (by norm_num [ptmRGBA]))

/-- A parameter buffer with `f = (10, 10)`, `c = (0, 0)`, `k0 = -8/5`,
`r_limit = 0`, blend amount 0, background mode 0, fov 1. -/
noncomputable def paramsLens : List (ℕ → ℝ) :=
  [fun j => if j = 0 then 10 else if j = 1 then 10 else if j = 4 then -(8 / 5) else 0,
   fun j => if j = 2 then 1 else 0]

theorem pK_paramsLens : pK paramsLens = kC3 := by
  funext i
  rcases i with _ | n
  · norm_num [pK, pRow0, paramsLens, kC3]
  · have h0 : 4 + (n + 1) ≠ 0 := by omega
    have h1 : 4 + (n + 1) ≠ 1 := by omega
    have h4 : 4 + (n + 1) ≠ 4 := by omega
    simp [pK, pRow0, paramsLens, kC3, h0, h1, h4]

theorem pAmount_paramsLens : pAmount paramsLens = 0 := by
  norm_num [pAmount, pRow1, paramsLens]

theorem pFov_paramsLens : pFov paramsLens = 1 := by
  norm_num [pFov, pRow1, paramsLens]

theorem pF_paramsLens : pF paramsLens = (10, 10) := by
  norm_num [pF, pRow0, paramsLens]

/-- C3 (amended): in `undistort_image_cpu`, when partial lens correction is
requested (`amount < 1`) and the inversion of the centered, scaled pixel
position fails, the position fed to the homography step is the output
center `(output_width / 2, output_height / 2)` — the normalized fallback
`(0, 0)` of `unwrap_or_default` mapped back — not the original pixel
position. -/
theorem lensPt_fallback_center (params : List (ℕ → ℝ)) (ow oh x y : ℕ)
    (hamt : pAmount params < 1)
    (hfail : undistort_point
      (((x : ℝ) - (ow : ℝ) / 2) /
          ((pF params).1 / pFov params / max (1 - pAmount params) (1 / 1000)),
        ((y : ℝ) - (oh : ℝ) / 2) /
          ((pF params).2 / pFov params / max (1 - pAmount params) (1 / 1000)))
      (pK params) (pAmount params) = none) :
    lensPt params ow oh x y = ((ow : ℝ) / 2, (oh : ℝ) / 2) := by
  simp only [lensPt]
  rw [if_pos hamt, hfail]
  simp

/-- C3 (counterexample): with `paramsLens` (so `f2 = (10, 10)`,
`out_c = (4, 5)`, amount 0), the pixel `(x, y) = (7, 9)` normalizes to
`(3/10, 2/5)`, whose inversion fails; the position used for the homography
step is the output center `(4, 5)`, not the original `(7, 9)` claimed by
the specification. -/
theorem lensPt_fallback_counterexample :
    pAmount paramsLens < 1 ∧
    undistort_point (3 / 10, 2 / 5) (pK paramsLens) (pAmount paramsLens) = none ∧
    lensPt paramsLens 8 10 7 9 = (4, 5) ∧
    ((4 : ℝ), (5 : ℝ)) ≠ ((7 : ℝ), (9 : ℝ)) := by
  refine ⟨by rw [pAmount_paramsLens]; norm_num,
    by rw [pK_paramsLens, pAmount_paramsLens]; exact up_none, ?_,
    by intro h; exact absurd (congrArg Prod.fst h) (by norm_num)⟩
  have h := lensPt_fallback_center paramsLens 8 10 7 9
    (by rw [pAmount_paramsLens]; norm_num) ?_
  · rw [h]; norm_num
  · rw [pAmount_paramsLens, pFov_paramsLens, pF_paramsLens]
    rw [show ((((7 : ℕ) : ℝ)) - ((8 : ℕ) : ℝ) / 2) /
        ((10, (10 : ℝ)).1 / 1 / max (1 - 0) (1 / 1000)) = 3 / 10 by
      norm_num [max_eq_left]]
    rw [show ((((9 : ℕ) : ℝ)) - ((10 : ℕ) : ℝ) / 2) /
        ((10, (10 : ℝ)).2 / 1 / max (1 - 0) (1 / 1000)) = 2 / 5 by
      norm_num [max_eq_left]]
    rw [pK_paramsLens]
    exact up_none

/-- Witness for the amended C3 at the same concrete configuration. -/
theorem lensPt_fallback_center_witness :
    (pAmount paramsLens < 1) ∧
    lensPt paramsLens 8 10 7 9 = (((8 : ℕ) : ℝ) / 2, ((10 : ℕ) : ℝ) / 2) := by
  refine ⟨by rw [pAmount_paramsLens]; norm_num, ?_⟩
  apply lensPt_fallback_center paramsLens 8 10 7 9
    (by rw [pAmount_paramsLens]; norm_num)
  rw [pAmount_paramsLens, pFov_paramsLens, pF_paramsLens]
  rw [show ((((7 : ℕ) : ℝ)) - ((8 : ℕ) : ℝ) / 2) /
      ((10, (10 : ℝ)).1 / 1 / max (1 - 0) (1 / 1000)) = 3 / 10 by
    norm_num [max_eq_left]]
  rw [show ((((9 : ℕ) : ℝ)) - ((10 : ℕ) : ℝ) / 2) /
      ((10, (10 : ℝ)).2 / 1 / max (1 - 0) (1 / 1000)) = 2 / 5 by
    norm_num [max_eq_left]]
  rw [pK_paramsLens]
  exact up_none

/-! ### C4: rolling-shutter source-row resolution -/

/-- C4 (amended): with rolling-shutter data (more than 3 parameter rows),
the effective source row is obtained by mapping `(x, y)` through the
middle-indexed row homography, forward-distorting with amount 0, rounding
the `y` coordinate and clamping it into `[0, height]` (`height` itself,
one past the last valid source row, is attainable); when that homography
yields `w ≤ 0`, `sy` stays `y`.  The result never exceeds
`max height y`. -/
theorem rsRow_spec (params : List (ℕ → ℝ)) (height x y : ℕ)
    (hlen : 3 < params.length) :
    rsRow params height x y =
      (let m := params.getD (2 + (params.length - 2) / 2) (fun _ => 0)
       let mx := (y : ℝ) * m 1 + m 2 + (x : ℝ) * m 0
       let my := (y : ℝ) * m 4 + m 5 + (x : ℝ) * m 3
       let mw := (y : ℝ) * m 7 + m 8 + (x : ℝ) * m 6
       if 0 < mw then
         (max (min (rustRound (distort_point (mx / mw, my / mw) (pF params)
           (pC params) (pK params) 0).2) (height : ℤ)) 0).toNat
       else y) ∧
    rsRow params height x y ≤ max height y := by
  constructor
  · simp only [rsRow, if_pos hlen]
  · simp only [rsRow, if_pos hlen]
    have key : ∀ z : ℤ, (max (min z (height : ℤ)) 0).toNat ≤ height := by
      intro z
      have hle : max (min z (height : ℤ)) 0 ≤ (height : ℤ) :=
        max_le (min_le_right _ _) (Int.ofNat_nonneg height)
      exact Int.toNat_le_toNat hle
    split_ifs with h
    · exact le_trans (key _) (le_max_left height y)
    · exact le_max_right height y

/-- A four-row parameter buffer: `f = (1, 1)`, `c = (0, 1000)`, `k = 0`,
and a middle homography (`params[3]`) that maps every pixel to the
normalized point `(0, 0)` with `w = 1`. -/
noncomputable def paramsRS : List (ℕ → ℝ) :=
  [fun j => if j = 0 then 1 else if j = 1 then 1 else if j = 3 then 1000 else 0,
   fun _ => 0,
   fun _ => 0,
   fun j => if j = 8 then 1 else 0]

theorem distort_origin_paramsRS :
    distort_point (0, 0) (pF paramsRS) (pC paramsRS) (pK paramsRS) 0 = (0, 1000) := by
  have hf : pF paramsRS = (1, 1) := by norm_num [pF, pRow0, paramsRS]
  have hc : pC paramsRS = (0, 1000) := by norm_num [pC, pRow0, paramsRS]
  rw [hf, hc]
  simp only [distort_point]
  norm_num [Real.sqrt_zero]

/-- C4 (counterexample): with `paramsRS` and `height = 4`, the pixel
`(0, 0)` resolves to `sy = 4` — the clamp is `.min(height)`, which is one
past the valid source-row range `0..height-1`. -/
theorem rsRow_counterexample :
    rsRow paramsRS 4 0 0 = 4 ∧ ¬rsRow paramsRS 4 0 0 ≤ 4 - 1 := by
  have hm : paramsRS.getD (2 + (paramsRS.length - 2) / 2) (fun _ => 0) =
      (fun j => if j = 8 then (1 : ℝ) else 0) := by
    norm_num [paramsRS]
  have hround : rustRound 1000 = 1000 := by
    rw [rustRound, if_pos (by norm_num : (0 : ℝ) ≤ 1000)]
    have : ⌊(1000 : ℝ) + 1 / 2⌋ = 1000 := by
      rw [Int.floor_eq_iff]
      norm_num
    rw [this]
  have h : rsRow paramsRS 4 0 0 = 4 := by
    simp only [rsRow]
    rw [if_pos (by norm_num [paramsRS] : 3 < paramsRS.length), hm]
    norm_num
    rw [show (0 : ℝ × ℝ) = ((0 : ℝ), (0 : ℝ)) from rfl, distort_origin_paramsRS]
    norm_num [hround, min_def, max_def]
    rfl
  exact ⟨h, by rw [h]; norm_num⟩

/-- Witness for the amended C4 at the same concrete configuration. -/
theorem rsRow_spec_witness :
    (3 < paramsRS.length) ∧ rsRow paramsRS 4 0 0 ≤ max 4 0 := by
  have h := rsRow_spec paramsRS 4 0 0 (by norm_num [paramsRS])
  exact ⟨by norm_num [paramsRS], h.2⟩

/-! ### GPU engine wrapper (`gpu/wgpu.rs`) -/

/-- The host-side state of `WgpuWrapper` that per-call validation reads and
updates: expected buffer sizes from construction, strides, and the
`num_params` global.  Device handles are external resources and are
modelled by the oracles of the operations below. -/
structure EngineModel where
  in_size : ℕ
  out_size : ℕ
  params_size : ℕ
  in_stride : ℕ
  out_stride : ℕ
  padded_out_stride : ℕ
  num_params : ℕ
deriving DecidableEq

/-- `WgpuWrapper::new` (`wgpu.rs`, lines 71-208).  `adapterOk` models
whether a GPU adapter is available, `deviceOk` whether `request_device`
succeeds, and `align` is `COPY_BYTES_PER_ROW_ALIGNMENT`.  The dimension
guard of line 74 runs before any device work. -/
def WgpuWrapper_new (adapterOk deviceOk : Bool)
    (width height stride output_width output_height output_stride align : ℕ) :
    Option EngineModel :=
  if height < 4 ∨ output_height < 4 ∨ stride < 1 ∨ 8192 < width ∨ 8192 < output_width then
    none
  else if adapterOk then
    if deviceOk then
      let padding := (align - output_stride % align) % align
      some { in_size := stride * height
             out_size := output_stride * output_height
             params_size := 9 * (height + 2) * 4
             in_stride := stride
             out_stride := output_stride
             padded_out_stride := output_stride + padding
             num_params := 3 }
    else none
  else none

/-- `WgpuWrapper::undistort_image` (`wgpu.rs`, lines 214-314).  The three
size checks of lines 217-219 run before anything is written; `mapOk`
models whether the staging-buffer readback map succeeds, and `rendered`
models the staging buffer contents produced by the device.  Returns the
engine state and the destination buffer after the call. -/
def WgpuWrapper_undistort_image (e : EngineModel) (pixels_len : ℕ)
    (output_pixels : ℕ → ℕ) (output_len : ℕ) (flattened_params_len : ℕ)
    (itm_params_count : ℕ) (mapOk : Bool) (rendered : ℕ → ℕ) :
    EngineModel × (ℕ → ℕ) :=
  if e.in_size ≠ pixels_len then (e, output_pixels)
  else if e.out_size ≠ output_len then (e, output_pixels)
  else if e.params_size < flattened_params_len then (e, output_pixels)
  else
    let e2 := { e with num_params := itm_params_count }
    if mapOk then
      if e.padded_out_stride = e.out_stride then
        (e2, fun i => if i < output_len then rendered i else output_pixels i)
      else
        (e2, fun i => if i < output_len then
          rendered (i / e.out_stride * e.padded_out_stride + i % e.out_stride)
        else output_pixels i)
    else (e2, output_pixels)

/-- C7: construction yields no engine for `height < 4`, `output_height < 4`,
`stride < 1`, `width > 8192` or `output_width > 8192`, regardless of the
adapter or device state. -/
theorem wgpu_new_rejects (adapterOk deviceOk : Bool)
    (width height stride output_width output_height output_stride align : ℕ)
    (hbad : height < 4 ∨ output_height < 4 ∨ stride < 1 ∨
      8192 < width ∨ 8192 < output_width) :
    WgpuWrapper_new adapterOk deviceOk width height stride output_width
      output_height output_stride align = none := by
  simp only [WgpuWrapper_new]
  rw [if_pos hbad]

/-- Witness for C7: `height = 3` is rejected. -/
theorem wgpu_new_rejects_witness :
    ((3 : ℕ) < 4 ∨ (100 : ℕ) < 4 ∨ (100 : ℕ) < 1 ∨ (8192 : ℕ) < 100 ∨
      (8192 : ℕ) < 100) ∧
    WgpuWrapper_new true true 100 3 100 100 100 100 256 = none := by
  exact ⟨Or.inl (by norm_num),
    wgpu_new_rejects true true 100 3 100 100 100 100 256 (Or.inl (by norm_num))⟩

/-- C8: when the input buffer size, output buffer size or parameter buffer
size disagrees with the sizes recorded at construction (input/output must
match exactly, the flattened parameters must fit in the allocated buffer),
`undistort_image` returns early: the engine state is unchanged (so the
engine remains usable) and the destination buffer is untouched. -/
theorem wgpu_undistort_image_size_mismatch (e : EngineModel) (pixels_len : ℕ)
    (output_pixels : ℕ → ℕ) (output_len flattened_params_len itm_params_count : ℕ)
    (mapOk : Bool) (rendered : ℕ → ℕ)
    (hmm : e.in_size ≠ pixels_len ∨ e.out_size ≠ output_len ∨
      e.params_size < flattened_params_len) :
    WgpuWrapper_undistort_image e pixels_len output_pixels output_len
      flattened_params_len itm_params_count mapOk rendered = (e, output_pixels) := by
  by_cases h1 : e.in_size ≠ pixels_len
  · simp only [WgpuWrapper_undistort_image]
    rw [if_pos h1]
  by_cases h2 : e.out_size ≠ output_len
  · simp only [WgpuWrapper_undistort_image]
    rw [if_neg h1, if_pos h2]
  have h3 : e.params_size < flattened_params_len := by tauto
  simp only [WgpuWrapper_undistort_image]
  rw [if_neg h1, if_neg h2, if_pos h3]

/-- Witness for C8: a call with a short input buffer is a no-op. -/
theorem wgpu_undistort_image_size_mismatch_witness :
    ((100 : ℕ) ≠ 99) ∧
    WgpuWrapper_undistort_image
      ⟨100, 200, 144, 10, 20, 20, 3⟩ 99 (fun j => j) 200 50 7 true (fun _ => 0) =
      (⟨100, 200, 144, 10, 20, 20, 3⟩, fun j => j) := by
  exact ⟨by norm_num,
    wgpu_undistort_image_size_mismatch ⟨100, 200, 144, 10, 20, 20, 3⟩ 99 (fun j => j)
      200 50 7 true (fun _ => 0) (Or.inl (by norm_num))⟩

end Gyroflow
